import Mathlib

/-!
Verification of the Lurhook simulation core (crates `common`, `mapgen`, `data`,
`fishing`, `ecology`, `game-core`) against its specification.

The Rust code is shallowly embedded: machine integers (`i32`, `u8`, `usize`)
become `ℤ`/`ℕ` (no overflow occurs at the verified call sites), `f32` values
become exact rationals `ℚ`, fallible code returns explicit result types, and
the `bracket_lib` random number generator becomes an explicit stream of
rational draws threaded through each function.
-/

namespace Lurhook

/-! Numeric primitives: exact-rational models of the Rust float/int operations. -/

/-- Floor of a rational, as `q.num / q.den` with Euclidean integer division;
agrees with `⌊q⌋` (see `ratFloor_eq_floor`). Kept as a plain division so that
concrete instances reduce in the kernel. -/
def ratFloor (q : ℚ) : ℤ := q.num / q.den

/-- Fractional part of a rational, in `[0, 1)`. -/
def unitFrac (q : ℚ) : ℚ := q - ratFloor q

/-- Rust `f32::round`: rounds half away from zero. -/
def rustRound (q : ℚ) : ℤ := if 0 ≤ q then ratFloor (q + 1/2) else -ratFloor (1/2 - q)

/-- Rust float-to-int cast `as i32` on an in-range value: truncation toward zero. -/
def rustTrunc (q : ℚ) : ℤ := if 0 ≤ q then ratFloor q else -ratFloor (-q)

/-- Rust `i32::clamp(lo, hi)`, for `lo ≤ hi`. -/
def rustClamp (v lo hi : ℤ) : ℤ := max lo (min hi v)

/-- Rust `f32::clamp(lo, hi)`, for `lo ≤ hi`. -/
def rustClampQ (v lo hi : ℚ) : ℚ := max lo (min hi v)

theorem ratFloor_eq_floor (q : ℚ) : ratFloor q = ⌊q⌋ := Rat.floor_def.symm

theorem unitFrac_eq_fract (q : ℚ) : unitFrac q = Int.fract q := by
  unfold unitFrac Int.fract
  rw [ratFloor_eq_floor]

theorem unitFrac_nonneg (q : ℚ) : 0 ≤ unitFrac q := by
  rw [unitFrac_eq_fract]; exact Int.fract_nonneg q

theorem unitFrac_lt_one (q : ℚ) : unitFrac q < 1 := by
  rw [unitFrac_eq_fract]; exact Int.fract_lt_one q

/-! Data model: `common::Point`, `mapgen::{TileKind, Map}`, `data::{FightStyle, FishType}`. -/

/-- The 2D coordinate `common::Point` (fields `x`, `y` of type `i32`). -/
structure Point where
  x : ℤ
  y : ℤ
deriving DecidableEq, Repr

/-- The tile classification `mapgen::TileKind`. -/
inductive TileKind where
  | Land
  | ShallowWater
  | DeepWater
deriving DecidableEq, Repr

/-- The predicate `matches!(tile, TileKind::ShallowWater | TileKind::DeepWater)`
used by `ecology` to recognise water tiles. -/
def TileKind.isWater : TileKind → Bool
  | TileKind.ShallowWater => true
  | TileKind.DeepWater => true
  | TileKind.Land => false

/-- The grid `mapgen::Map`: width, height, row-major tile list and parallel
depth list. -/
structure Map where
  width : ℕ
  height : ℕ
  tiles : List TileKind
  depths : List ℤ
deriving DecidableEq, Repr

/-- The index computation `Map::idx`: `(pt.y as usize) * width + pt.x as usize`
(all verified uses have non-negative coordinates). -/
def Map.idx (m : Map) (pt : Point) : ℕ := pt.y.toNat * m.width + pt.x.toNat

/-- The tile lookup `self.tiles[self.idx(pt)]`; out-of-range indices (which do
not occur at the verified call sites) default to `Land`, which the callers
treat as a rejected / non-water cell. -/
def Map.tile (m : Map) (pt : Point) : TileKind := m.tiles.getD (m.idx pt) TileKind.Land

/-- The depth lookup `Map::depth`: `self.depths[self.idx(pt)]`. -/
def Map.depth (m : Map) (pt : Point) : ℤ := m.depths.getD (m.idx pt) 0

/-- The constructor `Map::new(width, height)`: an all-`Land`, zero-depth map. -/
def Map.new (width height : ℕ) : Map :=
  { width := width, height := height,
    tiles := List.replicate (width * height) TileKind.Land,
    depths := List.replicate (width * height) 0 }

/-- Membership of a point in the map rectangle: `0 ≤ x < width ∧ 0 ≤ y < height`. -/
def Map.inBounds (m : Map) (pt : Point) : Prop :=
  0 ≤ pt.x ∧ pt.x < (m.width : ℤ) ∧ 0 ≤ pt.y ∧ pt.y < (m.height : ℤ)

instance (m : Map) (pt : Point) : Decidable (m.inBounds pt) := by
  unfold Map.inBounds; infer_instance

/-- The fight-style enum `data::FightStyle`. -/
inductive FightStyle where
  | Aggressive
  | Endurance
  | Evasive
deriving DecidableEq, Repr

/-- The species record `data::FishType` (`rarity: f32` modelled as `ℚ`). -/
structure FishType where
  id : String
  name : String
  rarity : ℚ
  strength : ℤ
  min_depth : ℤ
  max_depth : ℤ
  fight_style : FightStyle
  legendary : Bool
deriving DecidableEq, Repr

/-! The fishing mini-game: `fishing::{MeterState, TensionMeter, bite_probability}`. -/

/-- The outcome enum `fishing::MeterState`. -/
inductive MeterState where
  | Ongoing
  | Success
  | Broken
  | Lost
deriving DecidableEq, Repr

/-- The state `fishing::TensionMeter` (`reel_factor: f32` modelled as `ℚ`). -/
structure TensionMeter where
  tension : ℤ
  max_tension : ℤ
  duration : ℤ
  strength : ℤ
  style : FightStyle
  reel_factor : ℚ
deriving DecidableEq, Repr

/-- The constructor `TensionMeter::new(strength, style, reel_factor)`. -/
def TensionMeter.new (strength : ℤ) (style : FightStyle) (reel_factor : ℚ) : TensionMeter :=
  { tension := 0, max_tension := 100, duration := 5,
    strength := strength, style := style, reel_factor := reel_factor }

/-- The method `TensionMeter::update(reel)`: returns the mutated meter together
with the reported `MeterState`. -/
def TensionMeter.update (m : TensionMeter) (reel : Bool) : TensionMeter × MeterState :=
  let before := m.tension
  let m1 : TensionMeter :=
    if reel then
      let reduction := rustRound (10 * m.reel_factor)
      { m with tension := max (m.tension - reduction) 0 }
    else
      match m.style with
      | FightStyle.Aggressive => { m with tension := m.tension + m.strength * 2 }
      | FightStyle.Endurance =>
          let bonus := if m.duration > 2 then m.strength else m.strength.tdiv 2
          { m with tension := m.tension + bonus }
      | FightStyle.Evasive =>
          if m.tension ≤ 5 then { m with tension := 0 }
          else { m with tension := m.tension + m.strength }
  let m2 : TensionMeter := { m1 with duration := m1.duration - 1 }
  let st :=
    if m2.tension ≥ m2.max_tension then MeterState.Broken
    else if before > 0 ∧ m2.tension = 0 then MeterState.Lost
    else if m2.duration ≤ 0 then MeterState.Success
    else MeterState.Ongoing
  (m2, st)

/-- The function `fishing::bite_probability(tile, bait_bonus)`. -/
def bite_probability (tile : TileKind) (bait_bonus : ℚ) : ℚ :=
  let depth_bonus : ℚ :=
    match tile with
    | TileKind.ShallowWater => 1/10
    | TileKind.DeepWater => 3/10
    | TileKind.Land => 0
  rustClampQ (3/10 + depth_bonus + bait_bonus) 0 1

/-- The score computation `LurhookGame::score`: per caught fish,
`((1.0 / f.rarity) * 10.0) as i32`, summed. -/
def score (inventory : List FishType) : ℤ :=
  (inventory.map (fun f => rustTrunc ((1 / f.rarity) * 10))).sum

/-- The spec reading of the score: the same sum with `round` in place of the
`as i32` truncating cast. Stated for comparison with `score`. -/
def scoreSpecRounded (inventory : List FishType) : ℤ :=
  (inventory.map (fun f => rustRound ((1 / f.rarity) * 10))).sum

/-! Claims C1 and C2: the tension meter. -/

/-- C1: a single `TensionMeter::update` call reports exactly one outcome, chosen
by the priority Broken (post tension ≥ max) → Lost (tension was positive before
and is zero after) → Success (post duration ≤ 0) → Ongoing, all evaluated on the
post-update tension and duration; in particular tension ≥ max after the update
forces Broken even when the duration also reached zero. -/
theorem tension_update_resolution_priority (m : TensionMeter) (reel : Bool) :
    ((m.update reel).2 =
      if (m.update reel).1.max_tension ≤ (m.update reel).1.tension then MeterState.Broken
      else if 0 < m.tension ∧ (m.update reel).1.tension = 0 then MeterState.Lost
      else if (m.update reel).1.duration ≤ 0 then MeterState.Success
      else MeterState.Ongoing) ∧
    ((m.update reel).1.max_tension ≤ (m.update reel).1.tension →
      (m.update reel).2 = MeterState.Broken) := by
  constructor <;>
    cases reel <;> cases hs : m.style <;>
      simp only [TensionMeter.update, hs, ge_iff_le] <;>
      split_ifs <;> simp_all

/-- C1 witness: concrete instantiation at a meter whose post-update tension
exceeds the cap while the duration also reaches zero, and the outcome is
Broken. -/
theorem tension_update_resolution_priority_witness :
    (({ tension := 0, max_tension := 100, duration := 1, strength := 60,
        style := FightStyle.Aggressive, reel_factor := 1 } : TensionMeter).update false).2 =
      MeterState.Broken :=
  (tension_update_resolution_priority
    { tension := 0, max_tension := 100, duration := 1, strength := 60,
      style := FightStyle.Aggressive, reel_factor := 1 } false).2 (by decide)

theorem rustTrunc_eq_floor_of_nonneg (q : ℚ) (h : 0 ≤ q) : rustTrunc q = ⌊q⌋ := by
  simp [rustTrunc, h, ratFloor_eq_floor]

/-- C2: `TensionMeter::update` changes the tension by the reel reduction or the
style-specific pull, then decrements the duration by one in every branch; the
two concrete scenarios of the spec follow. -/
theorem tension_update_tension_change (m : TensionMeter) (reel : Bool) :
    (m.update reel).1.duration = m.duration - 1 ∧
    ((m.update reel).1.tension =
      if reel then max (m.tension - rustRound (10 * m.reel_factor)) 0
      else
        match m.style with
        | FightStyle.Aggressive => m.tension + m.strength * 2
        | FightStyle.Endurance =>
            m.tension + (if 2 < m.duration then m.strength else m.strength.tdiv 2)
        | FightStyle.Evasive =>
            if m.tension ≤ 5 then 0 else m.tension + m.strength) ∧
    ((TensionMeter.new 10 FightStyle.Aggressive 1).update false).1.tension = 20 ∧
    ((TensionMeter.new 10 FightStyle.Aggressive 1).update false).2 = MeterState.Ongoing ∧
    (m.style = FightStyle.Endurance → m.strength = 4 → m.duration = 1 →
      (m.update false).1.tension = m.tension + 2) := by
  refine ⟨?_, ?_, by decide, by decide, fun h1 h2 h3 => ?_⟩
  · cases reel <;> cases hs : m.style <;>
      simp only [TensionMeter.update, hs] <;> (try split_ifs) <;> rfl
  · cases reel <;> cases hs : m.style <;>
      simp only [TensionMeter.update, hs] <;> (try split_ifs) <;> rfl
  · simp only [TensionMeter.update, h1, h2, h3]
    norm_num
    decide

/-- C2 witness: an Endurance meter with strength 4 and duration 1 before the
update gains 2 tension, not 4. -/
theorem tension_update_tension_change_witness :
    (({ tension := 7, max_tension := 100, duration := 1, strength := 4,
        style := FightStyle.Endurance, reel_factor := 1 } : TensionMeter).update false).1.tension =
      ({ tension := 7, max_tension := 100, duration := 1, strength := 4,
         style := FightStyle.Endurance, reel_factor := 1 } : TensionMeter).tension + 2 :=
  (tension_update_tension_change
    { tension := 7, max_tension := 100, duration := 1, strength := 4,
      style := FightStyle.Endurance, reel_factor := 1 } false).2.2.2.2 rfl rfl rfl

/-! Claim C4: the end-run score. -/

/-- A concrete species record with rarity weight 3/5, used to separate the
truncating cast of `LurhookGame::score` from the rounding claimed by the spec. -/
def sampleRareFish : FishType :=
  { id := "S", name := "Sample", rarity := 3/5, strength := 1, min_depth := 0,
    max_depth := 10, fight_style := FightStyle.Aggressive, legendary := false }

/-- C4 counterexample: for a single caught fish of rarity 3/5 the value
`(1 / rarity) * 10 = 50/3`; the code truncates it to 16 while the claimed
rounding gives 17, so the score is not the claimed rounded sum. -/
theorem score_rounding_counterexample :
    score [sampleRareFish] = 16 ∧ scoreSpecRounded [sampleRareFish] = 17 ∧
    score [sampleRareFish] ≠ scoreSpecRounded [sampleRareFish] := by
  have hq : (1 / sampleRareFish.rarity) * 10 = (50 : ℚ)/3 := by
    rw [show sampleRareFish.rarity = 3/5 from rfl]; norm_num
  have h1 : score [sampleRareFish] = 16 := by
    simp only [score, List.map_cons, List.map_nil, List.sum_cons, List.sum_nil, add_zero, hq]
    rw [rustTrunc, if_pos (by norm_num), ratFloor_eq_floor]
    norm_num
  have h2 : scoreSpecRounded [sampleRareFish] = 17 := by
    simp only [scoreSpecRounded, List.map_cons, List.map_nil, List.sum_cons, List.sum_nil,
      add_zero, hq]
    rw [rustRound, if_pos (by norm_num), ratFloor_eq_floor]
    norm_num
  exact ⟨h1, h2, by rw [h1, h2]; decide⟩

/-- C4 amended: each inventory entry contributes the value `(1 / rarity) * 10`
truncated toward zero — for the positive rarity weights this is the floor, not
the rounded value. -/
theorem score_truncates (inventory : List FishType)
    (h : ∀ f ∈ inventory, 0 < f.rarity) :
    score inventory = (inventory.map (fun f => ⌊(1 / f.rarity) * 10⌋)).sum := by
  induction inventory with
  | nil => rfl
  | cons f rest ih =>
    have hf : (0:ℚ) ≤ (1 / f.rarity) * 10 := by
      have : 0 < f.rarity := h f (List.mem_cons_self f rest)
      positivity
    have hrest := ih fun g hg => h g (List.mem_cons_of_mem f hg)
    simp only [score, List.map_cons, List.sum_cons] at hrest ⊢
    rw [rustTrunc_eq_floor_of_nonneg _ hf, hrest]

/-- C4 amended witness: the amended statement at the concrete one-entry
inventory of rarity 3/5. -/
theorem score_truncates_witness :
    score [sampleRareFish] = ([sampleRareFish].map (fun f => ⌊(1 / f.rarity) * 10⌋)).sum :=
  score_truncates [sampleRareFish] (by
    intro f hf
    rw [List.mem_singleton] at hf
    rw [hf, show sampleRareFish.rarity = 3/5 from rfl]
    norm_num)

/-! Claim C5: hazard updates (`LurhookGame::update_hazards`, game-core ai.rs). -/

/-- The constant `LINE_DAMAGE` from game-core. -/
def LINE_DAMAGE : ℤ := 15

/-- The constant `HAZARD_DAMAGE` from game-core. -/
def HAZARD_DAMAGE : ℤ := 1

/-- The entity `game_core::types::Hazard` (`turns: u8` modelled as `ℕ`; the
guarded decrement never wraps). -/
structure Hazard where
  pos : Point
  turns : ℕ
deriving DecidableEq, Repr

/-- The slice of `LurhookGame` state read and written by `update_hazards`. -/
structure HazardState where
  playerPos : Point
  hp : ℤ
  line : ℤ
  hazards : List Hazard
deriving DecidableEq, Repr

/-- The first loop of `update_hazards`: decrement a countdown while positive. -/
def decHazard (h : Hazard) : Hazard :=
  if 0 < h.turns then { h with turns := h.turns - 1 } else h

/-- The body of the second loop of `update_hazards`: a hazard coincident with
the player damages hp (while positive) and line integrity (floored at 0). -/
def hazardHit (playerPos : Point) (hpLine : ℤ × ℤ) (h : Hazard) : ℤ × ℤ :=
  if h.pos = playerPos then
    ((if 0 < hpLine.1 then hpLine.1 - HAZARD_DAMAGE else hpLine.1),
     (if 0 < hpLine.2 then max (hpLine.2 - LINE_DAMAGE) 0 else hpLine.2))
  else hpLine

/-- The method `LurhookGame::update_hazards`: decrement all countdowns, apply
contact damage for hazards coincident with the player, drop expired hazards. -/
def update_hazards (s : HazardState) : HazardState :=
  let hazards := s.hazards.map decHazard
  let hpLine := hazards.foldl (hazardHit s.playerPos) (s.hp, s.line)
  { s with
    hp := hpLine.1,
    line := hpLine.2,
    hazards := hazards.filter (fun h => 0 < h.turns) }

/-- A state whose single hazard sits on the player with three turns left. -/
def hazardContactState : HazardState :=
  { playerPos := { x := 0, y := 0 }, hp := 10, line := 100,
    hazards := [{ pos := { x := 0, y := 0 }, turns := 3 }] }

/-- C5 counterexample: a hazard on the player's tile with 3 remaining turns
survives the update (with 2 turns left) while still coincident with the player,
so contact does not consume a hazard. -/
theorem update_hazards_contact_counterexample :
    (update_hazards hazardContactState).hazards =
      [{ pos := { x := 0, y := 0 }, turns := 2 }] ∧
    hazardContactState.playerPos = { x := 0, y := 0 } ∧
    ((update_hazards hazardContactState).hazards.filter
        (fun h => h.pos = hazardContactState.playerPos)).length = 1 := by decide

theorem hazardHit_foldl (p : Point) (hs : List Hazard) (hp line : ℤ)
    (hhp : 0 ≤ hp) (hline : 0 ≤ line) :
    hs.foldl (hazardHit p) (hp, line) =
      (max (hp - HAZARD_DAMAGE * (hs.filter (fun h => h.pos = p)).length) 0,
       max (line - LINE_DAMAGE * (hs.filter (fun h => h.pos = p)).length) 0) := by
  induction hs generalizing hp line with
  | nil =>
    simp only [List.foldl_nil, List.filter_nil, List.length_nil, Nat.cast_zero,
      mul_zero, sub_zero]
    rw [max_eq_left hhp, max_eq_left hline]
  | cons h rest ih =>
    by_cases hc : h.pos = p
    · have step : hazardHit p (hp, line) h =
          ((if 0 < hp then hp - HAZARD_DAMAGE else hp),
           (if 0 < line then max (line - LINE_DAMAGE) 0 else line)) := by
        simp [hazardHit, hc]
      have hhp' : (0:ℤ) ≤ if 0 < hp then hp - HAZARD_DAMAGE else hp := by
        unfold HAZARD_DAMAGE; split_ifs <;> omega
      have hline' : (0:ℤ) ≤ if 0 < line then max (line - LINE_DAMAGE) 0 else line := by
        unfold LINE_DAMAGE; split_ifs <;> omega
      rw [List.foldl_cons, step, ih _ _ hhp' hline']
      have hlen : ((h :: rest).filter (fun h => h.pos = p)).length =
          (rest.filter (fun h => h.pos = p)).length + 1 := by
        simp [List.filter_cons, hc]
      rw [hlen]
      unfold HAZARD_DAMAGE LINE_DAMAGE
      simp only [Prod.mk.injEq]
      constructor <;> push_cast <;> split_ifs <;> omega
    · have step : hazardHit p (hp, line) h = (hp, line) := by simp [hazardHit, hc]
      rw [List.foldl_cons, step, ih _ _ hhp hline]
      have hlen : ((h :: rest).filter (fun h => h.pos = p)).length =
          (rest.filter (fun h => h.pos = p)).length := by
        simp [List.filter_cons, hc]
      rw [hlen]

theorem decHazard_pos (h : Hazard) : (decHazard h).pos = h.pos := by
  unfold decHazard; split_ifs <;> rfl

theorem filter_coincident_map_decHazard (p : Point) (hs : List Hazard) :
    ((hs.map decHazard).filter (fun h => h.pos = p)).length =
      (hs.filter (fun h => h.pos = p)).length := by
  induction hs with
  | nil => rfl
  | cons h rest ih =>
    simp only [List.map_cons, List.filter_cons, decHazard_pos]
    split_ifs <;> simp [ih]

/-- C5 amended: after `update_hazards` every surviving hazard has a positive
countdown; a hazard that entered the turn with at least two remaining turns
survives the update even when it is coincident with the player (contact does
not consume it); each coincident hazard inflicts 1 hp damage (only while hp is
positive) and 15 line damage (floored at 0); hp and line integrity stay
non-negative. -/
theorem update_hazards_spec (s : HazardState) (hhp : 0 ≤ s.hp) (hline : 0 ≤ s.line) :
    (∀ h ∈ (update_hazards s).hazards, 0 < h.turns) ∧
    ((update_hazards s).hazards = (s.hazards.map decHazard).filter (fun h => 0 < h.turns)) ∧
    (∀ h ∈ s.hazards, 1 < h.turns → decHazard h ∈ (update_hazards s).hazards) ∧
    (update_hazards s).hp =
      max (s.hp - HAZARD_DAMAGE * (s.hazards.filter (fun h => h.pos = s.playerPos)).length) 0 ∧
    (update_hazards s).line =
      max (s.line - LINE_DAMAGE * (s.hazards.filter (fun h => h.pos = s.playerPos)).length) 0 ∧
    0 ≤ (update_hazards s).hp ∧ 0 ≤ (update_hazards s).line := by
  have hhz : (update_hazards s).hazards =
      (s.hazards.map decHazard).filter (fun h => 0 < h.turns) := rfl
  have hfold : (update_hazards s).hp =
        max (s.hp - HAZARD_DAMAGE *
          ((s.hazards.map decHazard).filter (fun h => h.pos = s.playerPos)).length) 0 ∧
      (update_hazards s).line =
        max (s.line - LINE_DAMAGE *
          ((s.hazards.map decHazard).filter (fun h => h.pos = s.playerPos)).length) 0 := by
    have := hazardHit_foldl s.playerPos (s.hazards.map decHazard) s.hp s.line hhp hline
    constructor <;> simp [update_hazards, this]
  rw [filter_coincident_map_decHazard] at hfold
  refine ⟨?_, hhz, ?_, hfold.1, hfold.2, ?_, ?_⟩
  · intro h hmem
    rw [hhz] at hmem
    exact of_decide_eq_true (List.mem_filter.1 hmem).2
  · intro h hmem hturns
    rw [hhz]
    refine List.mem_filter.2 ⟨List.mem_map_of_mem decHazard hmem, ?_⟩
    have hpos : 0 < (decHazard h).turns := by
      unfold decHazard
      split_ifs with hcond
      · show 0 < h.turns - 1
        omega
      · omega
    exact decide_eq_true hpos
  · rw [hfold.1]; exact le_max_right _ _
  · rw [hfold.2]; exact le_max_right _ _

/-- C5 amended witness: the amended statement at the concrete contact state. -/
theorem update_hazards_spec_witness :
    (∀ h ∈ (update_hazards hazardContactState).hazards, 0 < h.turns) ∧
    ((update_hazards hazardContactState).hazards =
      (hazardContactState.hazards.map decHazard).filter (fun h => 0 < h.turns)) ∧
    (∀ h ∈ hazardContactState.hazards, 1 < h.turns →
      decHazard h ∈ (update_hazards hazardContactState).hazards) ∧
    (update_hazards hazardContactState).hp =
      max (hazardContactState.hp - HAZARD_DAMAGE *
        (hazardContactState.hazards.filter
          (fun h => h.pos = hazardContactState.playerPos)).length) 0 ∧
    (update_hazards hazardContactState).line =
      max (hazardContactState.line - LINE_DAMAGE *
        (hazardContactState.hazards.filter
          (fun h => h.pos = hazardContactState.playerPos)).length) 0 ∧
    0 ≤ (update_hazards hazardContactState).hp ∧
    0 ≤ (update_hazards hazardContactState).line :=
  update_hazards_spec hazardContactState (by decide) (by decide)

/-! Claim C10: the fishing-mode update (`LurhookGame::update_fishing`). -/

/-- The live entity `ecology::Fish`. -/
structure Fish where
  kind : FishType
  position : Point
deriving DecidableEq, Repr

/-- The mode union `game_core::GameMode` (`wait: u8` modelled as `ℕ`). -/
inductive GameMode where
  | Exploring
  | Aiming (target : Point)
  | Fishing (wait : ℕ)
  | End (score : ℤ)
deriving DecidableEq, Repr

/-- The slice of `LurhookGame` state read and written by `update_fishing`.
Presentation-only state that the method also touches — UI logs and layout,
audio cues, the codex capture ledger, cast-path animation and the area-upgrade
check — is omitted; the bite roll `self.rng.range(0.0, 1.0)` is passed as an
explicit argument. -/
structure FishingGame where
  fishes : List Fish
  inventory : List FishType
  meter : Option TensionMeter
  mode : GameMode
  line : ℤ
  reeling : Bool
  bait_bonus : ℚ
  tension_bonus : ℤ
  reel_factor : ℚ
  map : Map
deriving DecidableEq, Repr

/-- The method `LurhookGame::update_fishing`: countdown, bite roll and meter
creation (parameterized by `self.fishes.first()`), then meter resolution —
on Success `self.fishes.pop()` removes the last fish and its species is pushed
into the inventory. -/
def update_fishing (g : FishingGame) (biteRoll : ℚ) : FishingGame :=
  match g.mode with
  | GameMode.Fishing wait =>
    if 0 < wait then { g with mode := GameMode.Fishing (wait - 1) }
    else
      match g.meter with
      | none =>
        let tile :=
          match g.fishes.head? with
          | some f => g.map.tile f.position
          | none => TileKind.ShallowWater
        let chance := bite_probability tile g.bait_bonus
        if biteRoll < chance then
          let m : TensionMeter :=
            match g.fishes.head? with
            | some f =>
              let m0 := TensionMeter.new f.kind.strength f.kind.fight_style g.reel_factor
              { m0 with max_tension := m0.max_tension + g.tension_bonus }
            | none =>
              let m0 := TensionMeter.new 5 FightStyle.Aggressive 1
              { m0 with max_tension := m0.max_tension + g.tension_bonus }
          { g with meter := some m }
        else { g with mode := GameMode.Exploring }
      | some meter =>
        match meter.update g.reeling with
        | (m1, MeterState.Ongoing) => { g with meter := some m1 }
        | (_, MeterState.Success) =>
          match g.fishes.getLast? with
          | some fish =>
            { g with
              fishes := g.fishes.dropLast,
              inventory := g.inventory ++ [fish.kind],
              meter := none,
              mode := GameMode.Exploring }
          | none => { g with meter := none, mode := GameMode.Exploring }
        | (_, MeterState.Broken) =>
          { g with
            line := if 0 < g.line then max (g.line - LINE_DAMAGE) 0 else g.line,
            meter := none,
            mode := GameMode.Exploring }
        | (_, MeterState.Lost) => { g with meter := none, mode := GameMode.Exploring }
  | _ => g

/-- C10: the tension meter created on a bite is parameterized by the first fish
of the population vector, while a Success outcome pops the last fish of the
vector into the inventory; when first and last have different species, the
caught species differs from the one that drove the mini-game. -/
theorem success_pops_last_fish (gB gS : FishingGame) (rollB rollS : ℚ)
    (mS : TensionMeter) (f0B f0S fnS : Fish)
    (hB1 : gB.mode = GameMode.Fishing 0) (hB2 : gB.meter = none)
    (hB3 : gB.fishes.head? = some f0B)
    (hB4 : rollB < bite_probability (gB.map.tile f0B.position) gB.bait_bonus)
    (hS1 : gS.mode = GameMode.Fishing 0) (hS2 : gS.meter = some mS)
    (hS3 : (mS.update gS.reeling).2 = MeterState.Success)
    (hS4 : gS.fishes.head? = some f0S) (hS5 : gS.fishes.getLast? = some fnS) :
    (update_fishing gB rollB).meter = some
      { tension := 0, max_tension := 100 + gB.tension_bonus, duration := 5,
        strength := f0B.kind.strength, style := f0B.kind.fight_style,
        reel_factor := gB.reel_factor } ∧
    (update_fishing gS rollS).inventory = gS.inventory ++ [fnS.kind] ∧
    (update_fishing gS rollS).fishes = gS.fishes.dropLast ∧
    (f0S.kind ≠ fnS.kind →
      ((update_fishing gS rollS).inventory).getLast? = some fnS.kind ∧ fnS.kind ≠ f0S.kind) := by
  rcases hu : mS.update gS.reeling with ⟨m1, st⟩
  rw [hu] at hS3
  simp only at hS3
  subst hS3
  refine ⟨?_, ?_, ?_, ?_⟩
  · simp [update_fishing, hB1, hB2, hB3, hB4, TensionMeter.new]
  · simp [update_fishing, hS1, hS2, hu, hS5]
  · simp [update_fishing, hS1, hS2, hu, hS5]
  · intro hne
    refine ⟨?_, hne.symm⟩
    simp [update_fishing, hS1, hS2, hu, hS5]

/-- A species record used in the concrete C10 state for the hooked-parameter
fish. -/
def speciesA : FishType :=
  { id := "A", name := "A", rarity := 1, strength := 3, min_depth := 0,
    max_depth := 10, fight_style := FightStyle.Aggressive, legendary := false }

/-- A species record used in the concrete C10 state for the caught fish. -/
def speciesB : FishType :=
  { id := "B", name := "B", rarity := 1, strength := 7, min_depth := 0,
    max_depth := 10, fight_style := FightStyle.Evasive, legendary := false }

/-- A single-tile all-shallow-water map used by the concrete states. -/
def mapOneWater : Map :=
  { width := 1, height := 1, tiles := [TileKind.ShallowWater], depths := [1] }

/-- A concrete fishing state about to roll a bite, population `[A-fish]`. -/
def biteGame : FishingGame :=
  { fishes := [{ kind := speciesA, position := { x := 0, y := 0 } }],
    inventory := [], meter := none, mode := GameMode.Fishing 0, line := 100,
    reeling := false, bait_bonus := 0, tension_bonus := 0, reel_factor := 1,
    map := mapOneWater }

/-- A tension meter one turn from Success (duration 1, no pull). -/
def successMeter : TensionMeter :=
  { tension := 0, max_tension := 100, duration := 1, strength := 0,
    style := FightStyle.Aggressive, reel_factor := 1 }

/-- A concrete fishing state whose meter resolves to Success this turn, with
population `[A-fish, B-fish]`: the meter was parameterized by the A-fish but
the B-fish is caught. -/
def successGame : FishingGame :=
  { fishes := [{ kind := speciesA, position := { x := 0, y := 0 } },
               { kind := speciesB, position := { x := 0, y := 0 } }],
    inventory := [], meter := some successMeter, mode := GameMode.Fishing 0,
    line := 100, reeling := false, bait_bonus := 0, tension_bonus := 0,
    reel_factor := 1, map := mapOneWater }

/-- C10 witness: the theorem at the two concrete states; the caught species is
B while the meter was parameterized by A. -/
theorem success_pops_last_fish_witness :
    (update_fishing biteGame 0).meter = some
      { tension := 0, max_tension := 100 + biteGame.tension_bonus, duration := 5,
        strength := speciesA.strength, style := speciesA.fight_style,
        reel_factor := biteGame.reel_factor } ∧
    (update_fishing successGame 0).inventory = successGame.inventory ++ [speciesB] ∧
    (update_fishing successGame 0).fishes = successGame.fishes.dropLast ∧
    (speciesA ≠ speciesB →
      ((update_fishing successGame 0).inventory).getLast? = some speciesB ∧
      speciesB ≠ speciesA) :=
  success_pops_last_fish biteGame successGame 0 0 successMeter
    { kind := speciesA, position := { x := 0, y := 0 } }
    { kind := speciesA, position := { x := 0, y := 0 } }
    { kind := speciesB, position := { x := 0, y := 0 } }
    rfl rfl rfl
    (by rw [show biteGame.map.tile { x := 0, y := 0 } = TileKind.ShallowWater from rfl,
          show biteGame.bait_bonus = 0 from rfl]
        unfold bite_probability rustClampQ
        norm_num)
    rfl rfl (by decide) rfl rfl

/-! The random number generator. `bracket_lib::RandomNumberGenerator` is
modelled as an infinite stream of rational draws plus a cursor; each `range`
call consumes one draw and maps it into the requested half-open interval. -/

/-- A generator state: the draw stream and the position of the next draw. -/
structure Rng where
  stream : ℕ → ℚ
  pos : ℕ

/-- Consume one draw. -/
def Rng.next (r : Rng) : ℚ × Rng := (r.stream r.pos, { r with pos := r.pos + 1 })

/-- Model of `rng.range(lo, hi)` on floats: a value in `[lo, hi)` when
`lo < hi`, driven by the consumed draw `v`. -/
def rngRangeQ (lo hi v : ℚ) : ℚ := lo + unitFrac v * (hi - lo)

/-- Model of `rng.range(lo, hi)` on integers: a value in `[lo, hi)` when
`lo < hi`, driven by the consumed draw `v`. -/
def rngIntRange (lo hi : ℤ) (v : ℚ) : ℤ := lo + ratFloor (unitFrac v * (hi - lo))

/-- Model of `rng.range(0, n) as usize` for a positive length `n`. -/
def rngNatBelow (n : ℕ) (v : ℚ) : ℕ := (ratFloor (unitFrac v * n)).toNat

theorem rngNatBelow_lt (n : ℕ) (v : ℚ) (hn : 0 < n) : rngNatBelow n v < n := by
  have h1 : unitFrac v * (n : ℚ) < (n : ℚ) := by
    have := unitFrac_lt_one v
    have hn0 : (0:ℚ) < n := by exact_mod_cast hn
    calc unitFrac v * (n : ℚ) < 1 * n := by
          exact mul_lt_mul_of_pos_right this hn0
      _ = n := one_mul _
  have h2 : ratFloor (unitFrac v * n) < (n : ℤ) := by
    rw [ratFloor_eq_floor]
    exact_mod_cast Int.floor_lt.2 (by exact_mod_cast h1)
  have h3 : (0:ℤ) ≤ ratFloor (unitFrac v * n) := by
    rw [ratFloor_eq_floor]
    apply Int.floor_nonneg.2
    have := unitFrac_nonneg v
    positivity
  unfold rngNatBelow
  omega

/-- Equivalence of generator states: from their current cursors onward the two
streams deliver identical draws. -/
def Rng.EquivFrom (r1 r2 : Rng) : Prop :=
  ∀ n, r1.stream (r1.pos + n) = r2.stream (r2.pos + n)

theorem Rng.EquivFrom.head {r1 r2 : Rng} (h : Rng.EquivFrom r1 r2) :
    r1.next.1 = r2.next.1 := by
  have := h 0
  simpa [Rng.next] using this

theorem Rng.EquivFrom.tail {r1 r2 : Rng} (h : Rng.EquivFrom r1 r2) :
    Rng.EquivFrom r1.next.2 r2.next.2 := by
  intro n
  have := h (n + 1)
  simpa [Rng.next, Nat.add_assoc, Nat.add_comm 1 n] using this

/-! Population ecology: `ecology::spawn_fish_population` and
`ecology::update_fish`. -/

/-- Result of `spawn_fish_population`: `ok` for `Ok(fishes)`,
`invalidOperation` for `Err(GameError::InvalidOperation)`, and
`indexOutOfBounds` for the undefined evaluation of `&fish_types[0]` on an
empty species list. -/
inductive SpawnResult where
  | ok (fishes : List Fish)
  | invalidOperation
  | indexOutOfBounds
deriving DecidableEq, Repr

/-- One row of the water-coordinate scan of `spawn_fish_population`. -/
def waterRow (m : Map) (y : ℕ) : List Point :=
  (List.range m.width).filterMap (fun (x : ℕ) =>
    if (m.tile { x := (x : ℤ), y := (y : ℤ) }).isWater then
      some ({ x := (x : ℤ), y := (y : ℤ) } : Point)
    else none)

/-- The water-coordinate collection at the top of `spawn_fish_population`:
a row-major scan pushing the coordinates of every water tile. -/
def waterTiles (m : Map) : List Point :=
  (List.range m.height).flatMap (fun y => waterRow m y)

/-- The weighted-sampling loop of one spawn attempt: starting from
`chosen = &fish_types[0]`, subtract each rarity from the roll in order and
stop at the first species that drives the roll to `≤ 0`. -/
def chooseSpeciesGo : List FishType → ℚ → FishType → FishType
  | [], _, chosen => chosen
  | ft :: rest, roll, chosen =>
    if roll - ft.rarity ≤ 0 then ft else chooseSpeciesGo rest (roll - ft.rarity) chosen

/-- The species selection of one spawn attempt; `none` models the
out-of-bounds indexing `&fish_types[0]` on an empty species list. -/
def chooseSpecies (fish_types : List FishType) (roll : ℚ) : Option FishType :=
  match fish_types with
  | [] => none
  | f0 :: _ => some (chooseSpeciesGo fish_types roll f0)

/-- Rust `Vec::swap_remove(i)`: overwrite element `i` with the last element,
then drop the last element. -/
def swapRemove (l : List Point) (i : ℕ) : List Point :=
  (l.set i (l.getD (l.length - 1) { x := 0, y := 0 })).dropLast

/-- The candidate filter of one spawn attempt: indices into `water` whose
depth lies within the chosen species' inclusive depth range. -/
def depthCandidates (m : Map) (water : List Point) (chosen : FishType) : List ℕ :=
  (List.range water.length).filter (fun i =>
    chosen.min_depth ≤ m.depth (water.getD i { x := 0, y := 0 }) ∧
    m.depth (water.getD i { x := 0, y := 0 }) ≤ chosen.max_depth)

/-- The spawning loop of `spawn_fish_population`; the fuel argument is the
remaining attempt budget `max_attempts - attempts`. -/
def spawnLoop (m : Map) (fish_types : List FishType) (count : ℕ) (total : ℚ) :
    ℕ → List Point → List Fish → Rng → SpawnResult
  | 0, _, fishes, _ => SpawnResult.ok fishes
  | fuel + 1, water, fishes, rng =>
    if fishes.length < count ∧ water ≠ [] then
      let draw1 := rng.next
      let roll := rngRangeQ 0 total draw1.1
      match chooseSpecies fish_types roll with
      | none => SpawnResult.indexOutOfBounds
      | some chosen =>
        let candidates := depthCandidates m water chosen
        if candidates = [] then
          spawnLoop m fish_types count total fuel water fishes draw1.2
        else
          let draw2 := draw1.2.next
          let idx := candidates.getD (rngNatBelow candidates.length draw2.1) 0
          let pos := water.getD idx { x := 0, y := 0 }
          spawnLoop m fish_types count total fuel (swapRemove water idx)
            (fishes ++ [{ kind := chosen, position := pos }]) draw2.2
    else SpawnResult.ok fishes

/-- The function `ecology::spawn_fish_population(map, fish_types, count)`.
The function internally creates a fresh `RandomNumberGenerator::new()`
(entropy-seeded, not derived from the session seed); that generator is the
explicit `rng` argument of the model. -/
def spawn_fish_population (m : Map) (fish_types : List FishType) (count : ℕ)
    (rng : Rng) : SpawnResult :=
  let water := waterTiles m
  if water = [] then SpawnResult.invalidOperation
  else
    let total := (fish_types.map FishType.rarity).sum
    spawnLoop m fish_types count total (count * 10) water [] rng

/-- The schooling radius `SCHOOL_RADIUS` from ecology. -/
def SCHOOL_RADIUS : ℤ := 4

/-- The taxicab distance used by the schooling filter. -/
def manhattan (a b : Point) : ℤ := |a.x - b.x| + |a.y - b.y|

/-- Rust `Iterator::min_by_key` over candidate positions, keyed by taxicab
distance to `pos`; the first minimum wins. -/
def minByManhattan (pos : Point) : List Point → Option Point
  | [] => none
  | p :: rest =>
    some (rest.foldl (fun best q => if manhattan q pos < manhattan best pos then q else best) p)

/-- A placeholder fish used for out-of-range list indexing defaults (never hit
at the verified call sites). -/
def dummyFish : Fish :=
  { kind := { id := "", name := "", rarity := 0, strength := 0, min_depth := 0,
              max_depth := 0, fight_style := FightStyle.Aggressive, legendary := false },
    position := { x := 0, y := 0 } }

/-- The schooling candidates for the fish at index `i`: positions of other
fish of the same species within the school radius (taxicab distance). -/
def schoolCandidates (fishes : List Fish) (i : ℕ) (self : Fish) : List Point :=
  ((fishes.enum.filter (fun je => je.1 ≠ i ∧ je.2.kind.id = self.kind.id)).map
      (fun je => je.2.position)).filter
    (fun p => manhattan p self.position ≤ SCHOOL_RADIUS)

/-- The movement arithmetic of `ecology::update_fish`: the biased deltas are
clamped per axis to `[-speed, speed]` and the candidate cell is clamped to the
map rectangle. -/
def candidatePoint (m : Map) (speed : ℤ) (pos : Point) (dx0 dy0 : ℤ) : Point :=
  { x := rustClamp (pos.x + rustClamp dx0 (-speed) speed) 0 ((m.width : ℤ) - 1),
    y := rustClamp (pos.y + rustClamp dy0 (-speed) speed) 0 ((m.height : ℤ) - 1) }

/-- The loop body of `ecology::update_fish` for the fish at index `i`: random
per-axis delta, schooling bias, per-axis clamp to `[-speed, speed]`, clamp to
map bounds, and acceptance only on a water tile. -/
def moveFish (m : Map) (speed : ℤ) (fishes : List Fish) (i : ℕ) (rng : Rng) :
    List Fish × Rng :=
  let draw1 := rng.next
  let draw2 := draw1.2.next
  let dxRand := rngIntRange (-speed) (speed + 1) draw1.1
  let dyRand := rngIntRange (-speed) (speed + 1) draw2.1
  let self := fishes.getD i dummyFish
  let school := minByManhattan self.position (schoolCandidates fishes i self)
  let dx0 :=
    match school with
    | some nearest => dxRand + (nearest.x - self.position.x).sign
    | none => dxRand
  let dy0 :=
    match school with
    | some nearest => dyRand + (nearest.y - self.position.y).sign
    | none => dyRand
  let newPt := candidatePoint m speed self.position dx0 dy0
  if (m.tile newPt).isWater then
    (fishes.set i { self with position := newPt }, draw2.2)
  else (fishes, draw2.2)

/-- The indexed loop of `ecology::update_fish` (`for i in 0..fishes.len()`);
the fuel argument bounds the remaining iterations. -/
def updateFishGo (m : Map) (speed : ℤ) :
    ℕ → ℕ → List Fish → Rng → List Fish × Rng
  | 0, _, fishes, rng => (fishes, rng)
  | fuel + 1, i, fishes, rng =>
    if i < fishes.length then
      let step := moveFish m speed fishes i rng
      updateFishGo m speed fuel (i + 1) step.1 step.2
    else (fishes, rng)

/-- The function `ecology::update_fish(map, fishes, rng, time_of_day)`:
speed 2 at Night and 1 otherwise, then the indexed per-fish loop. -/
def update_fish (m : Map) (fishes : List Fish) (rng : Rng) (time_of_day : String) :
    List Fish × Rng :=
  let speed : ℤ := if time_of_day = "Night" then 2 else 1
  updateFishGo m speed fishes.length 0 fishes rng

theorem chooseSpecies_eq_some (fish_types : List FishType) (roll : ℚ)
    (hne : fish_types ≠ []) :
    ∃ chosen, chooseSpecies fish_types roll = some chosen := by
  cases fish_types with
  | nil => exact absurd rfl hne
  | cons f0 rest => exact ⟨_, rfl⟩

theorem spawnLoop_ne_invalid (m : Map) (fish_types : List FishType) (count : ℕ)
    (total : ℚ) (fuel : ℕ) :
    ∀ (water : List Point) (fishes : List Fish) (rng : Rng),
      spawnLoop m fish_types count total fuel water fishes rng ≠
        SpawnResult.invalidOperation := by
  induction fuel with
  | zero =>
    intro water fishes rng h
    simp [spawnLoop] at h
  | succ n ih =>
    intro water fishes rng h
    simp only [spawnLoop] at h
    split at h
    · split at h
      · simp at h
      · split at h
        · exact ih _ _ _ h
        · exact ih _ _ _ h
    · simp at h

theorem spawnLoop_ok_of_ne_nil (m : Map) (fish_types : List FishType) (count : ℕ)
    (total : ℚ) (hne : fish_types ≠ []) (fuel : ℕ) :
    ∀ (water : List Point) (fishes : List Fish) (rng : Rng),
      ∃ out, spawnLoop m fish_types count total fuel water fishes rng =
        SpawnResult.ok out := by
  induction fuel with
  | zero =>
    intro water fishes rng
    exact ⟨fishes, rfl⟩
  | succ n ih =>
    intro water fishes rng
    simp only [spawnLoop]
    split
    · obtain ⟨c, hc⟩ := chooseSpecies_eq_some fish_types
        (rngRangeQ 0 total rng.next.1) hne
      simp only [hc]
      split
      · exact ih _ _ _
      · exact ih _ _ _
    · exact ⟨fishes, rfl⟩

/-- C6: `spawn_fish_population` fails with InvalidOperation exactly when the
map has no water tiles; on the all-Land `Map::new(5, 5)` it fails for any
species list and count, and with at least one water tile (and a non-empty
species list) it returns Ok. -/
theorem spawn_invalid_iff_no_water (m : Map) (fish_types : List FishType)
    (count : ℕ) (rng : Rng) (hne : fish_types ≠ []) :
    (spawn_fish_population m fish_types count rng = SpawnResult.invalidOperation ↔
      waterTiles m = []) ∧
    spawn_fish_population (Map.new 5 5) fish_types count rng =
      SpawnResult.invalidOperation ∧
    (waterTiles m ≠ [] →
      ∃ fishes, spawn_fish_population m fish_types count rng =
        SpawnResult.ok fishes) := by
  have h55 : waterTiles (Map.new 5 5) = [] := by decide
  refine ⟨?_, ?_, ?_⟩
  · by_cases hw : waterTiles m = []
    · simp [spawn_fish_population, hw]
    · simp only [spawn_fish_population, if_neg hw]
      constructor
      · intro h
        exact absurd h (spawnLoop_ne_invalid m fish_types count _ _ _ _ _)
      · intro h
        exact absurd h hw
  · simp [spawn_fish_population, h55]
  · intro hw
    simp only [spawn_fish_population, if_neg hw]
    exact spawnLoop_ok_of_ne_nil m fish_types count _ hne _ _ _ _

/-- C6 witness: on the one-water-tile map with a single species and count 0 the
call returns Ok, never InvalidOperation, and on the 5x5 all-Land map it is
InvalidOperation. -/
theorem spawn_invalid_iff_no_water_witness :
    ((spawn_fish_population mapOneWater [speciesA] 0 { stream := fun _ => 0, pos := 0 } =
        SpawnResult.invalidOperation) ↔ waterTiles mapOneWater = []) ∧
    spawn_fish_population (Map.new 5 5) [speciesA] 0 { stream := fun _ => 0, pos := 0 } =
      SpawnResult.invalidOperation ∧
    (waterTiles mapOneWater ≠ [] →
      ∃ fishes, spawn_fish_population mapOneWater [speciesA] 0
        { stream := fun _ => 0, pos := 0 } = SpawnResult.ok fishes) :=
  spawn_invalid_iff_no_water mapOneWater [speciesA] 0
    { stream := fun _ => 0, pos := 0 } (by decide)

/-- C9: on a map with at least one water tile and a positive requested count,
`spawn_fish_population` applied to an empty species list hits the
out-of-bounds evaluation of `&fish_types[0]` (modelled as `indexOutOfBounds`)
and in particular reports no `InvalidOperation` error: a non-empty species
list is an unchecked precondition. -/
theorem spawn_empty_species_not_total (m : Map) (count : ℕ) (rng : Rng)
    (hw : waterTiles m ≠ []) (hc : 1 ≤ count) :
    spawn_fish_population m [] count rng = SpawnResult.indexOutOfBounds ∧
    spawn_fish_population m [] count rng ≠ SpawnResult.invalidOperation := by
  have hmain : spawn_fish_population m [] count rng = SpawnResult.indexOutOfBounds := by
    simp only [spawn_fish_population, if_neg hw]
    obtain ⟨k, hk⟩ : ∃ k, count * 10 = k + 1 := ⟨count * 10 - 1, by omega⟩
    rw [hk]
    simp only [spawnLoop]
    rw [if_pos ⟨by simpa using hc, hw⟩]
    rfl
  exact ⟨hmain, by rw [hmain]; simp⟩

/-- C9 witness: the concrete one-water-tile map with an empty species list and
count 1. -/
theorem spawn_empty_species_not_total_witness :
    spawn_fish_population mapOneWater [] 1 { stream := fun _ => 0, pos := 0 } =
      SpawnResult.indexOutOfBounds ∧
    spawn_fish_population mapOneWater [] 1 { stream := fun _ => 0, pos := 0 } ≠
      SpawnResult.invalidOperation :=
  spawn_empty_species_not_total mapOneWater 1 { stream := fun _ => 0, pos := 0 }
    (by decide) (by decide)

theorem dropLast_cons_ne {α : Type} (x : α) (l : List α) (h : l ≠ []) :
    (x :: l).dropLast = x :: l.dropLast := by
  cases l with
  | nil => exact absurd rfl h
  | cons b t => exact List.dropLast_cons₂

theorem cons_swapRemove_perm :
    ∀ (l : List Point) (i : ℕ), i < l.length →
      (l.getD i { x := 0, y := 0 } :: swapRemove l i).Perm l := by
  intro l
  induction l with
  | nil => intro i hi; simp at hi
  | cons a t ih =>
    intro i hi
    cases i with
    | zero =>
      cases t with
      | nil => simp [swapRemove]
      | cons b t2 =>
        have hne : (b :: t2 : List Point) ≠ [] := by simp
        have hvlast : (a :: b :: t2).getD ((a :: b :: t2).length - 1) { x := 0, y := 0 } =
            (b :: t2).getLast hne := by
          have h1 : (a :: b :: t2).length - 1 = ((b :: t2).length - 1) + 1 := by
            simp
          rw [h1, List.getD_cons_succ, List.getD_eq_get _ _ (by simp)]
          rw [List.getLast_eq_get]
        have hsw : swapRemove (a :: b :: t2) 0 =
            (b :: t2).getLast hne :: (b :: t2).dropLast := by
          unfold swapRemove
          rw [hvlast]
          show (((b :: t2).getLast hne) :: b :: t2).dropLast = _
          rw [dropLast_cons_ne _ _ hne]
        rw [hsw, List.getD_cons_zero]
        refine List.Perm.cons a ?_
        have hdl : (b :: t2).dropLast ++ [(b :: t2).getLast hne] = b :: t2 :=
          List.dropLast_append_getLast hne
        have hperm := (List.perm_append_singleton ((b :: t2).getLast hne)
          ((b :: t2).dropLast)).symm
        rw [hdl] at hperm
        exact hperm
    | succ j =>
      have hj : j < t.length := by simpa using hi
      have htne : t ≠ [] := by
        cases t with
        | nil => simp at hj
        | cons c t2 => simp
      have hvsucc : (a :: t).getD ((a :: t).length - 1) { x := 0, y := 0 } =
          t.getD (t.length - 1) { x := 0, y := 0 } := by
        have h1 : (a :: t).length - 1 = (t.length - 1) + 1 := by
          cases t with
          | nil => exact absurd rfl htne
          | cons c t2 => simp
        rw [h1, List.getD_cons_succ]
      have hsw : swapRemove (a :: t) (j + 1) = a :: swapRemove t j := by
        unfold swapRemove
        rw [hvsucc]
        show (a :: t.set j (t.getD (t.length - 1) { x := 0, y := 0 })).dropLast = _
        rw [dropLast_cons_ne]
        intro hnil
        have hlen2 := congrArg List.length hnil
        rw [List.length_set] at hlen2
        simp only [List.length_nil] at hlen2
        omega
      rw [hsw, List.getD_cons_succ]
      exact (List.Perm.swap a (t.getD j { x := 0, y := 0 }) (swapRemove t j)).trans
        (List.Perm.cons a (ih j hj))

theorem swapRemove_facts (l : List Point) (i : ℕ) (h : i < l.length) (hnd : l.Nodup) :
    (swapRemove l i).length + 1 = l.length ∧
    (∀ x ∈ swapRemove l i, x ∈ l) ∧
    (swapRemove l i).Nodup ∧
    l.getD i { x := 0, y := 0 } ∉ swapRemove l i := by
  have hp := cons_swapRemove_perm l i h
  have hlen := hp.length_eq
  have hnd2 := hp.symm.nodup hnd
  rw [List.nodup_cons] at hnd2
  refine ⟨by simpa using hlen, ?_, hnd2.2, hnd2.1⟩
  intro x hx
  exact hp.subset (List.mem_cons_of_mem _ hx)

theorem mem_waterRow (m : Map) (y : ℕ) (pt : Point) (h : pt ∈ waterRow m y) :
    (m.tile pt).isWater = true ∧ pt.y = (y : ℤ) ∧
    0 ≤ pt.x ∧ pt.x < (m.width : ℤ) := by
  simp only [waterRow, List.mem_filterMap, List.mem_range] at h
  obtain ⟨x, hx, hpt⟩ := h
  by_cases hw : (m.tile { x := (x : ℤ), y := (y : ℤ) }).isWater = true
  · rw [if_pos hw] at hpt
    cases hpt
    refine ⟨hw, rfl, by positivity, ?_⟩
    show (x : ℤ) < (m.width : ℤ)
    exact_mod_cast hx
  · rw [if_neg hw] at hpt
    cases hpt

theorem mem_waterTiles (m : Map) (pt : Point) (h : pt ∈ waterTiles m) :
    (m.tile pt).isWater = true ∧ m.inBounds pt := by
  simp only [waterTiles, List.mem_flatMap, List.mem_range] at h
  obtain ⟨y, hy, hrow⟩ := h
  obtain ⟨hw, hpy, hx0, hxw⟩ := mem_waterRow m y pt hrow
  refine ⟨hw, hx0, hxw, ?_, ?_⟩
  · rw [hpy]; positivity
  · rw [hpy]; exact_mod_cast hy

theorem waterRow_nodup (m : Map) (y : ℕ) : (waterRow m y).Nodup := by
  unfold waterRow
  refine List.Nodup.filterMap ?_ (List.nodup_range m.width)
  intro a b c hac hbc
  by_cases hwa : (m.tile { x := (a : ℤ), y := (y : ℤ) }).isWater = true
  · rw [if_pos hwa, Option.mem_def] at hac
    by_cases hwb : (m.tile { x := (b : ℤ), y := (y : ℤ) }).isWater = true
    · rw [if_pos hwb, Option.mem_def] at hbc
      injection hac with hac2
      injection hbc with hbc2
      have hx : ({ x := (a : ℤ), y := (y : ℤ) } : Point).x =
          ({ x := (b : ℤ), y := (y : ℤ) } : Point).x := by
        rw [hac2, hbc2]
      simp only at hx
      exact_mod_cast hx
    · rw [if_neg hwb] at hbc
      cases hbc
  · rw [if_neg hwa] at hac
    cases hac

theorem waterTiles_nodup (m : Map) : (waterTiles m).Nodup := by
  unfold waterTiles
  rw [List.flatMap_def, List.nodup_flatten]
  constructor
  · intro l hl
    rw [List.mem_map] at hl
    obtain ⟨y, _, rfl⟩ := hl
    exact waterRow_nodup m y
  · rw [List.pairwise_map]
    refine List.Pairwise.imp ?_ (List.nodup_range m.height)
    intro y1 y2 hne pt h1 h2
    have e1 := (mem_waterRow m y1 pt h1).2.1
    have e2 := (mem_waterRow m y2 pt h2).2.1
    apply hne
    have : (y1 : ℤ) = (y2 : ℤ) := by rw [← e1, ← e2]
    exact_mod_cast this

/-- The per-fish invariant of C7: the spawned fish sits on a water tile whose
depth lies within its species' inclusive depth range. -/
def fishOk (m : Map) (f : Fish) : Prop :=
  f.kind.min_depth ≤ m.depth f.position ∧ m.depth f.position ≤ f.kind.max_depth ∧
  (m.tile f.position).isWater = true

theorem depthCandidates_getD_spec (m : Map) (water : List Point) (chosen : FishType)
    (j : ℕ) (hj : j < (depthCandidates m water chosen).length) :
    (depthCandidates m water chosen).getD j 0 < water.length ∧
    chosen.min_depth ≤
      m.depth (water.getD ((depthCandidates m water chosen).getD j 0) { x := 0, y := 0 }) ∧
    m.depth (water.getD ((depthCandidates m water chosen).getD j 0) { x := 0, y := 0 }) ≤
      chosen.max_depth := by
  have hmem : (depthCandidates m water chosen).getD j 0 ∈ depthCandidates m water chosen := by
    rw [List.getD_eq_getElem _ _ hj]
    exact List.getElem_mem _
  unfold depthCandidates at hmem
  rw [List.mem_filter, List.mem_range, decide_eq_true_eq] at hmem
  exact ⟨hmem.1, hmem.2.1, hmem.2.2⟩

theorem spawnLoop_invariant (m : Map) (fish_types : List FishType) (count : ℕ)
    (total : ℚ) (fuel : ℕ) :
    ∀ (water : List Point) (fishes : List Fish) (rng : Rng) (out : List Fish),
      spawnLoop m fish_types count total fuel water fishes rng = SpawnResult.ok out →
      water.Nodup →
      (∀ pt ∈ water, pt ∈ waterTiles m) →
      (∀ f ∈ fishes, fishOk m f) →
      (fishes.map (fun f => f.position)).Nodup →
      (∀ f ∈ fishes, f.position ∉ water) →
      fishes.length ≤ count →
      (∀ f ∈ out, fishOk m f) ∧
      (out.map (fun f => f.position)).Nodup ∧
      out.length ≤ count ∧
      out.length ≤ fishes.length + water.length := by
  induction fuel with
  | zero =>
    intro water fishes rng out h hnd hsub hok hposnd hdisj hcnt
    simp only [spawnLoop, SpawnResult.ok.injEq] at h
    subst h
    exact ⟨hok, hposnd, hcnt, by omega⟩
  | succ n ih =>
    intro water fishes rng out h hnd hsub hok hposnd hdisj hcnt
    simp only [spawnLoop] at h
    by_cases hg : fishes.length < count ∧ water ≠ []
    · rw [if_pos hg] at h
      rcases hcs : chooseSpecies fish_types (rngRangeQ 0 total rng.next.1)
          with _ | chosen
      · rw [hcs] at h
        simp at h
      · rw [hcs] at h
        simp only at h
        by_cases hcand : depthCandidates m water chosen = []
        · rw [if_pos hcand] at h
          exact ih water fishes _ out h hnd hsub hok hposnd hdisj hcnt
        · rw [if_neg hcand] at h
          have hclen : 0 < (depthCandidates m water chosen).length :=
            List.length_pos.2 hcand
          have hjlt := rngNatBelow_lt (depthCandidates m water chosen).length
            rng.next.2.next.1 hclen
          obtain ⟨hidxlt, hdep1, hdep2⟩ :=
            depthCandidates_getD_spec m water chosen _ hjlt
          have hposmem : water.getD ((depthCandidates m water chosen).getD
              (rngNatBelow (depthCandidates m water chosen).length rng.next.2.next.1) 0)
              { x := 0, y := 0 } ∈ water := by
            rw [List.getD_eq_getElem _ _ hidxlt]
            exact List.getElem_mem _
          obtain ⟨hswlen, hswsub, hswnd, hswnotmem⟩ :=
            swapRemove_facts water _ hidxlt hnd
          have hres := ih _ _ _ out h hswnd
            (fun pt hpt => hsub pt (hswsub pt hpt))
            (by
              intro f hf
              rw [List.mem_append] at hf
              rcases hf with hf | hf
              · exact hok f hf
              · rw [List.mem_singleton] at hf
                subst hf
                refine ⟨hdep1, hdep2, ?_⟩
                exact (mem_waterTiles m _ (hsub _ hposmem)).1)
            (by
              rw [List.map_append, List.nodup_append]
              refine ⟨hposnd, by simp, ?_⟩
              intro p hp hq
              simp only [List.map_cons, List.map_nil, List.mem_singleton] at hq
              subst hq
              rw [List.mem_map] at hp
              obtain ⟨f, hf, hfp⟩ := hp
              exact hdisj f hf (hfp ▸ hposmem))
            (by
              intro f hf
              rw [List.mem_append] at hf
              rcases hf with hf | hf
              · intro hmem
                exact hdisj f hf (hswsub _ hmem)
              · rw [List.mem_singleton] at hf
                subst hf
                exact hswnotmem)
            (by
              rw [List.length_append, List.length_singleton]
              omega)
          refine ⟨hres.1, hres.2.1, hres.2.2.1, ?_⟩
          have := hres.2.2.2
          rw [List.length_append, List.length_singleton] at this
          omega
    · rw [if_neg hg] at h
      simp only [SpawnResult.ok.injEq] at h
      subst h
      exact ⟨hok, hposnd, hcnt, by omega⟩

/-- C7: every fish returned by a successful `spawn_fish_population` call sits
on a water tile whose depth lies within its species' inclusive depth range,
the returned positions are pairwise distinct, and the number of returned fish
is at most the requested count and at most the number of water tiles. -/
theorem spawn_population_ok_invariants (m : Map) (fish_types : List FishType)
    (count : ℕ) (rng : Rng) (out : List Fish)
    (h : spawn_fish_population m fish_types count rng = SpawnResult.ok out) :
    (∀ f ∈ out, fishOk m f) ∧
    (out.map (fun f => f.position)).Nodup ∧
    out.length ≤ count ∧ out.length ≤ (waterTiles m).length := by
  simp only [spawn_fish_population] at h
  by_cases hw : waterTiles m = []
  · rw [if_pos hw] at h
    simp at h
  · rw [if_neg hw] at h
    have := spawnLoop_invariant m fish_types count
      ((fish_types.map FishType.rarity).sum) (count * 10) (waterTiles m) [] rng out h
      (waterTiles_nodup m) (fun pt hpt => hpt) (by simp) (by simp) (by simp)
      (by simp)
    exact ⟨this.1, this.2.1, this.2.2.1, by simpa using this.2.2.2⟩

/-- A generator whose stream is constantly 0. -/
def rngZero : Rng := { stream := fun _ => 0, pos := 0 }

/-- A generator whose stream is constantly 1/2. -/
def rngHalf : Rng := { stream := fun _ => 1/2, pos := 0 }

/-- A 2x1 all-shallow-water map with depth 1 everywhere. -/
def mapTwoWater : Map :=
  { width := 2, height := 1, tiles := [TileKind.ShallowWater, TileKind.ShallowWater],
    depths := [1, 1] }

theorem unitFrac_zero : unitFrac 0 = 0 := by
  rw [unitFrac_eq_fract, Int.fract_zero]

theorem unitFrac_half : unitFrac (1/2) = 1/2 := by
  rw [unitFrac_eq_fract]
  rw [Int.fract_eq_self.2 ⟨by norm_num, by norm_num⟩]

theorem rngNatBelow_two_zero : rngNatBelow 2 0 = 0 := by
  unfold rngNatBelow
  rw [unitFrac_zero, ratFloor_eq_floor]
  norm_num

theorem rngNatBelow_two_half : rngNatBelow 2 (1/2) = 1 := by
  unfold rngNatBelow
  rw [unitFrac_half, ratFloor_eq_floor]
  norm_num

theorem chooseSpecies_singleton (ft : FishType) (roll : ℚ) :
    chooseSpecies [ft] roll = some ft := by
  simp only [chooseSpecies, chooseSpeciesGo]
  split_ifs <;> rfl

theorem spawnLoop_stop (m : Map) (fish_types : List FishType) (count : ℕ)
    (total : ℚ) (fuel : ℕ) (water : List Point) (fishes : List Fish) (rng : Rng)
    (h : ¬(fishes.length < count ∧ water ≠ [])) :
    spawnLoop m fish_types count total (fuel + 1) water fishes rng =
      SpawnResult.ok fishes := by
  simp only [spawnLoop, if_neg h]

theorem spawnLoop_push (m : Map) (fish_types : List FishType) (count : ℕ)
    (total : ℚ) (fuel : ℕ) (water : List Point) (fishes : List Fish) (rng : Rng)
    (chosen : FishType) (idx : ℕ)
    (hg : fishes.length < count ∧ water ≠ [])
    (hcs : chooseSpecies fish_types (rngRangeQ 0 total rng.next.1) = some chosen)
    (hcand : depthCandidates m water chosen ≠ [])
    (hidx : (depthCandidates m water chosen).getD
        (rngNatBelow (depthCandidates m water chosen).length rng.next.2.next.1) 0 = idx) :
    spawnLoop m fish_types count total (fuel + 1) water fishes rng =
      spawnLoop m fish_types count total fuel (swapRemove water idx)
        (fishes ++ [{ kind := chosen, position := water.getD idx { x := 0, y := 0 } }])
        rng.next.2.next.2 := by
  simp only [spawnLoop, if_pos hg, hcs, if_neg hcand, hidx]

theorem waterTiles_mapTwoWater :
    waterTiles mapTwoWater = [{ x := 0, y := 0 }, { x := 1, y := 0 }] := by decide

theorem spawn_rngZero_eval :
    spawn_fish_population mapTwoWater [speciesA] 1 rngZero =
      SpawnResult.ok [{ kind := speciesA, position := { x := 0, y := 0 } }] := by
  have htotal : (([speciesA].map FishType.rarity).sum : ℚ) = 1 := by
    simp [speciesA]
  simp only [spawn_fish_population, waterTiles_mapTwoWater, htotal]
  rw [if_neg (by decide)]
  rw [show (1 * 10 : ℕ) = 9 + 1 from rfl]
  rw [spawnLoop_push mapTwoWater [speciesA] 1 1 9 _ [] rngZero speciesA 0
    (by decide) (chooseSpecies_singleton speciesA _) (by decide) ?hidx]
  case hidx =>
    rw [show rngZero.next.2.next.1 = 0 from rfl]
    rw [show depthCandidates mapTwoWater [{ x := 0, y := 0 }, { x := 1, y := 0 }] speciesA
        = [0, 1] from by decide]
    rw [show ([0, 1] : List ℕ).length = 2 from rfl, rngNatBelow_two_zero]
    decide
  rw [show (9 : ℕ) = 8 + 1 from rfl]
  rw [spawnLoop_stop _ _ _ _ _ _ _ _ (by decide)]
  rfl

theorem spawn_rngHalf_eval :
    spawn_fish_population mapTwoWater [speciesA] 1 rngHalf =
      SpawnResult.ok [{ kind := speciesA, position := { x := 1, y := 0 } }] := by
  have htotal : (([speciesA].map FishType.rarity).sum : ℚ) = 1 := by
    simp [speciesA]
  simp only [spawn_fish_population, waterTiles_mapTwoWater, htotal]
  rw [if_neg (by decide)]
  rw [show (1 * 10 : ℕ) = 9 + 1 from rfl]
  rw [spawnLoop_push mapTwoWater [speciesA] 1 1 9 _ [] rngHalf speciesA 1
    (by decide) (chooseSpecies_singleton speciesA _) (by decide) ?hidx]
  case hidx =>
    rw [show rngHalf.next.2.next.1 = 1/2 from rfl]
    rw [show depthCandidates mapTwoWater [{ x := 0, y := 0 }, { x := 1, y := 0 }] speciesA
        = [0, 1] from by decide]
    rw [show ([0, 1] : List ℕ).length = 2 from rfl, rngNatBelow_two_half]
    decide
  rw [show (9 : ℕ) = 8 + 1 from rfl]
  rw [spawnLoop_stop _ _ _ _ _ _ _ _ (by decide)]
  rfl

/-- C7 witness: the invariants at a concrete successful spawn on the 2x1
water map. -/
theorem spawn_population_ok_invariants_witness :
    (∀ f ∈ [({ kind := speciesA, position := { x := 0, y := 0 } } : Fish)],
      fishOk mapTwoWater f) ∧
    (([({ kind := speciesA, position := { x := 0, y := 0 } } : Fish)]).map
      (fun f => f.position)).Nodup ∧
    ([({ kind := speciesA, position := { x := 0, y := 0 } } : Fish)]).length ≤ 1 ∧
    ([({ kind := speciesA, position := { x := 0, y := 0 } } : Fish)]).length ≤
      (waterTiles mapTwoWater).length :=
  spawn_population_ok_invariants mapTwoWater [speciesA] 1 rngZero
    [{ kind := speciesA, position := { x := 0, y := 0 } }] spawn_rngZero_eval

/-- C3 counterexample: with the same map, species list and count — everything a
fixed session seed determines — two different entropy streams for the internal
`RandomNumberGenerator::new()` of `spawn_fish_population` produce different
fish populations, so the session seed does not reproduce the spawned
population. -/
theorem spawn_entropy_counterexample :
    spawn_fish_population mapTwoWater [speciesA] 1 rngZero =
      SpawnResult.ok [{ kind := speciesA, position := { x := 0, y := 0 } }] ∧
    spawn_fish_population mapTwoWater [speciesA] 1 rngHalf =
      SpawnResult.ok [{ kind := speciesA, position := { x := 1, y := 0 } }] ∧
    spawn_fish_population mapTwoWater [speciesA] 1 rngZero ≠
      spawn_fish_population mapTwoWater [speciesA] 1 rngHalf := by
  refine ⟨spawn_rngZero_eval, spawn_rngHalf_eval, ?_⟩
  rw [spawn_rngZero_eval, spawn_rngHalf_eval]
  intro hcontra
  simp only [SpawnResult.ok.injEq, List.cons.injEq] at hcontra
  have := congrArg Fish.position hcontra.1
  simp only at this
  have := congrArg Point.x this
  simp only at this
  exact absurd this (by decide)

theorem spawnLoop_respects_stream (m : Map) (fish_types : List FishType)
    (count : ℕ) (total : ℚ) (fuel : ℕ) :
    ∀ (water : List Point) (fishes : List Fish) (r1 r2 : Rng),
      Rng.EquivFrom r1 r2 →
      spawnLoop m fish_types count total fuel water fishes r1 =
        spawnLoop m fish_types count total fuel water fishes r2 := by
  induction fuel with
  | zero => intro water fishes r1 r2 _; rfl
  | succ n ih =>
    intro water fishes r1 r2 heq
    simp only [spawnLoop]
    by_cases hg : fishes.length < count ∧ water ≠ []
    · rw [if_pos hg, if_pos hg, heq.head]
      rcases Option.eq_none_or_eq_some
          (chooseSpecies fish_types (rngRangeQ 0 total r2.next.1)) with hcs | ⟨chosen, hcs⟩
      · rw [hcs]
      · rw [hcs]
        simp only
        by_cases hcand : depthCandidates m water chosen = []
        · rw [if_pos hcand, if_pos hcand]
          exact ih _ _ _ _ heq.tail
        · rw [if_neg hcand, if_neg hcand, heq.tail.head]
          exact ih _ _ _ _ heq.tail.tail
    · rw [if_neg hg, if_neg hg]

/-- C3 amended: the spawned population is a deterministic function of the map,
the species list, the count and the draw stream of the internal entropy-seeded
generator — two generator states that deliver identical draws yield identical
populations. (The counterexample shows the population is not determined by the
seed-derived inputs alone, because that internal generator is created by
`RandomNumberGenerator::new()` rather than from the session seed.) -/
theorem spawn_population_determined_by_draws (m : Map) (fish_types : List FishType)
    (count : ℕ) (r1 r2 : Rng) (h : Rng.EquivFrom r1 r2) :
    spawn_fish_population m fish_types count r1 =
      spawn_fish_population m fish_types count r2 := by
  simp only [spawn_fish_population]
  by_cases hw : waterTiles m = []
  · rw [if_pos hw, if_pos hw]
  · rw [if_neg hw, if_neg hw]
    exact spawnLoop_respects_stream m fish_types count _ _ _ _ _ _ h

/-- C3 amended witness: a cursor-shifted constant-zero stream delivers the
same draws as `rngZero`, so the two spawns agree. -/
theorem spawn_population_determined_by_draws_witness :
    spawn_fish_population mapTwoWater [speciesA] 1 { stream := fun _ => 0, pos := 7 } =
      spawn_fish_population mapTwoWater [speciesA] 1 rngZero :=
  spawn_population_determined_by_draws mapTwoWater [speciesA] 1
    { stream := fun _ => 0, pos := 7 } rngZero (fun _ => rfl)

theorem abs_rustClamp_le (v speed : ℤ) (hs : 0 < speed) :
    |rustClamp v (-speed) speed| ≤ speed := by
  unfold rustClamp
  rw [abs_le]
  omega

theorem rustClamp_move_bounds (x w dx speed : ℤ) (hx0 : 0 ≤ x) (hxw : x < w)
    (hs : 0 < speed) (hdx : |dx| ≤ speed) :
    0 ≤ rustClamp (x + dx) 0 (w - 1) ∧ rustClamp (x + dx) 0 (w - 1) < w ∧
    |rustClamp (x + dx) 0 (w - 1) - x| ≤ speed := by
  rw [abs_le] at hdx
  unfold rustClamp
  refine ⟨by omega, by omega, ?_⟩
  rw [abs_le]
  omega

theorem candidatePoint_spec (m : Map) (speed : ℤ) (pos : Point) (dx0 dy0 : ℤ)
    (hs : 0 < speed) (hb : m.inBounds pos) :
    m.inBounds (candidatePoint m speed pos dx0 dy0) ∧
    |(candidatePoint m speed pos dx0 dy0).x - pos.x| ≤ speed ∧
    |(candidatePoint m speed pos dx0 dy0).y - pos.y| ≤ speed := by
  obtain ⟨hx0, hxw, hy0, hyh⟩ := hb
  have hdx := abs_rustClamp_le dx0 speed hs
  have hdy := abs_rustClamp_le dy0 speed hs
  obtain ⟨ha1, ha2, ha3⟩ := rustClamp_move_bounds pos.x m.width _ speed hx0 hxw hs hdx
  obtain ⟨hb1, hb2, hb3⟩ := rustClamp_move_bounds pos.y m.height _ speed hy0 hyh hs hdy
  exact ⟨⟨ha1, ha2, hb1, hb2⟩, ha3, hb3⟩

theorem getD_set_ne {α : Type} (l : List α) (i j : ℕ) (a d : α) (hne : j ≠ i) :
    (l.set i a).getD j d = l.getD j d := by
  by_cases hj : j < l.length
  · rw [List.getD_eq_getElem _ _ (by rw [List.length_set]; exact hj),
      List.getD_eq_getElem _ _ hj]
    exact List.getElem_set_ne hne.symm _
  · rw [List.getD_eq_default _ _ (by rw [List.length_set]; omega),
      List.getD_eq_default _ _ (by omega)]

theorem getD_set_self {α : Type} (l : List α) (i : ℕ) (a d : α) (hi : i < l.length) :
    (l.set i a).getD i d = a := by
  rw [List.getD_eq_getElem _ _ (by rw [List.length_set]; exact hi)]
  exact List.getElem_set_self _

theorem moveFish_spec (m : Map) (speed : ℤ) (fishes : List Fish) (i : ℕ) (rng : Rng)
    (hs : 0 < speed) (hi : i < fishes.length)
    (hfi : m.inBounds (fishes.getD i dummyFish).position ∧
      (m.tile (fishes.getD i dummyFish).position).isWater = true) :
    (moveFish m speed fishes i rng).1.length = fishes.length ∧
    (∀ j, j ≠ i →
      (moveFish m speed fishes i rng).1.getD j dummyFish = fishes.getD j dummyFish) ∧
    (m.inBounds ((moveFish m speed fishes i rng).1.getD i dummyFish).position ∧
      (m.tile ((moveFish m speed fishes i rng).1.getD i dummyFish).position).isWater = true) ∧
    |((moveFish m speed fishes i rng).1.getD i dummyFish).position.x -
      (fishes.getD i dummyFish).position.x| ≤ speed ∧
    |((moveFish m speed fishes i rng).1.getD i dummyFish).position.y -
      (fishes.getD i dummyFish).position.y| ≤ speed := by
  simp only [moveFish]
  split
  case isTrue hacc =>
    have hcand := candidatePoint_spec m speed (fishes.getD i dummyFish).position
      (match minByManhattan (fishes.getD i dummyFish).position
          (schoolCandidates fishes i (fishes.getD i dummyFish)) with
        | some nearest =>
          rngIntRange (-speed) (speed + 1) rng.next.1 +
            (nearest.x - (fishes.getD i dummyFish).position.x).sign
        | none => rngIntRange (-speed) (speed + 1) rng.next.1)
      (match minByManhattan (fishes.getD i dummyFish).position
          (schoolCandidates fishes i (fishes.getD i dummyFish)) with
        | some nearest =>
          rngIntRange (-speed) (speed + 1) rng.next.2.next.1 +
            (nearest.y - (fishes.getD i dummyFish).position.y).sign
        | none => rngIntRange (-speed) (speed + 1) rng.next.2.next.1)
      hs hfi.1
    refine ⟨by simp, fun j hj => getD_set_ne _ _ _ _ _ hj, ?_, ?_, ?_⟩
    · rw [getD_set_self _ _ _ _ hi]
      exact ⟨hcand.1, hacc⟩
    · rw [getD_set_self _ _ _ _ hi]
      exact hcand.2.1
    · rw [getD_set_self _ _ _ _ hi]
      exact hcand.2.2
  case isFalse hacc =>
    refine ⟨rfl, fun j hj => rfl, hfi, ?_, ?_⟩ <;>
      · rw [sub_self, abs_zero]
        omega

theorem updateFishGo_invariant (m : Map) (speed : ℤ) (hs : 0 < speed)
    (orig : List Fish)
    (horig : ∀ f ∈ orig, m.inBounds f.position ∧ (m.tile f.position).isWater = true)
    (fuel : ℕ) :
    ∀ (i : ℕ) (fishes : List Fish) (rng : Rng),
      fishes.length = orig.length →
      (∀ j, j < i → j < orig.length →
        m.inBounds ((fishes.getD j dummyFish).position) ∧
        (m.tile (fishes.getD j dummyFish).position).isWater = true) →
      (∀ j, j < orig.length →
        |(fishes.getD j dummyFish).position.x - (orig.getD j dummyFish).position.x| ≤ speed ∧
        |(fishes.getD j dummyFish).position.y - (orig.getD j dummyFish).position.y| ≤ speed) →
      (∀ j, i ≤ j → fishes.getD j dummyFish = orig.getD j dummyFish) →
      ((updateFishGo m speed fuel i fishes rng).1.length = orig.length ∧
       (∀ j, j < orig.length →
         m.inBounds (((updateFishGo m speed fuel i fishes rng).1.getD j dummyFish).position) ∧
         (m.tile (((updateFishGo m speed fuel i fishes rng).1.getD j dummyFish).position)).isWater
           = true) ∧
       (∀ j, j < orig.length →
         |((updateFishGo m speed fuel i fishes rng).1.getD j dummyFish).position.x -
           (orig.getD j dummyFish).position.x| ≤ speed ∧
         |((updateFishGo m speed fuel i fishes rng).1.getD j dummyFish).position.y -
           (orig.getD j dummyFish).position.y| ≤ speed)) := by
  induction fuel with
  | zero =>
    intro i fishes rng hlen hproc hdisp hunproc
    simp only [updateFishGo]
    refine ⟨hlen, ?_, hdisp⟩
    intro j hj
    by_cases hji : j < i
    · exact hproc j hji hj
    · have := hunproc j (by omega)
      rw [this]
      have hmem : orig.getD j dummyFish ∈ orig := by
        rw [List.getD_eq_getElem _ _ hj]
        exact List.getElem_mem _
      exact horig _ hmem
  | succ n ih =>
    intro i fishes rng hlen hproc hdisp hunproc
    simp only [updateFishGo]
    by_cases hib : i < fishes.length
    · rw [if_pos hib]
      have hself : fishes.getD i dummyFish = orig.getD i dummyFish := hunproc i le_rfl
      have hforig : m.inBounds (orig.getD i dummyFish).position ∧
          (m.tile (orig.getD i dummyFish).position).isWater = true := by
        have hmem : orig.getD i dummyFish ∈ orig := by
          rw [List.getD_eq_getElem _ _ (by omega)]
          exact List.getElem_mem _
        exact horig _ hmem
      have hfi : m.inBounds (fishes.getD i dummyFish).position ∧
          (m.tile (fishes.getD i dummyFish).position).isWater = true := by
        rw [hself]; exact hforig
      obtain ⟨hslen, hsne, hsok, hsdx, hsdy⟩ := moveFish_spec m speed fishes i rng hs hib hfi
      refine ih (i + 1) (moveFish m speed fishes i rng).1 (moveFish m speed fishes i rng).2
        (by rw [hslen, hlen]) ?_ ?_ ?_
      · intro j hj hjlen
        by_cases hji : j < i
        · rw [hsne j (by omega)]
          exact hproc j hji hjlen
        · have : j = i := by omega
          subst this
          exact hsok
      · intro j hjlen
        by_cases hji : j = i
        · subst hji
          rw [hself] at hsdx hsdy
          exact ⟨hsdx, hsdy⟩
        · rw [hsne j hji]
          exact hdisp j hjlen
      · intro j hj
        rw [hsne j (by omega)]
        exact hunproc j (by omega)
    · rw [if_neg hib]
      refine ⟨hlen, ?_, hdisp⟩
      intro j hj
      by_cases hji : j < i
      · exact hproc j hji hj
      · have := hunproc j (by omega)
        rw [this]
        have hmem : orig.getD j dummyFish ∈ orig := by
          rw [List.getD_eq_getElem _ _ hj]
          exact List.getElem_mem _
        exact horig _ hmem

/-- C8: for a fish population that starts within bounds on water tiles, every
fish after `update_fish` is still within map bounds and on a water tile, and
the per-axis displacement of each fish never exceeds the speed, which is 2 at
Night and 1 at any other time of day. -/
theorem update_fish_preserves_water_bounds (m : Map) (fishes : List Fish)
    (rng : Rng) (time_of_day : String)
    (hf : ∀ f ∈ fishes, m.inBounds f.position ∧ (m.tile f.position).isWater = true) :
    (update_fish m fishes rng time_of_day).1.length = fishes.length ∧
    (∀ f ∈ (update_fish m fishes rng time_of_day).1,
      m.inBounds f.position ∧ (m.tile f.position).isWater = true) ∧
    (∀ j,
      |((update_fish m fishes rng time_of_day).1.getD j dummyFish).position.x -
        (fishes.getD j dummyFish).position.x| ≤
        (if time_of_day = "Night" then 2 else 1) ∧
      |((update_fish m fishes rng time_of_day).1.getD j dummyFish).position.y -
        (fishes.getD j dummyFish).position.y| ≤
        (if time_of_day = "Night" then 2 else 1)) := by
  have hs : (0:ℤ) < if time_of_day = "Night" then 2 else 1 := by
    split_ifs <;> norm_num
  have hinv := updateFishGo_invariant m (if time_of_day = "Night" then 2 else 1) hs
    fishes hf fishes.length 0 fishes rng rfl
    (fun j hj _ => absurd hj (by omega))
    (by
      intro j hj
      constructor <;> (rw [sub_self, abs_zero]; omega))
    (fun j _ => rfl)
  have hup : update_fish m fishes rng time_of_day =
      updateFishGo m (if time_of_day = "Night" then 2 else 1) fishes.length 0 fishes rng := rfl
  rw [hup]
  refine ⟨hinv.1, ?_, ?_⟩
  · intro f hfmem
    rw [List.mem_iff_getElem] at hfmem
    obtain ⟨j, hj, hjf⟩ := hfmem
    have hjlen : j < fishes.length := by
      rw [← hinv.1]; exact hj
    have := hinv.2.1 j hjlen
    rw [List.getD_eq_getElem _ _ hj, hjf] at this
    exact this
  · intro j
    by_cases hj : j < fishes.length
    · exact hinv.2.2 j hj
    · rw [List.getD_eq_default _ _ (by rw [hinv.1]; omega),
        List.getD_eq_default _ _ (by omega)]
      constructor <;> (rw [sub_self, abs_zero]; omega)

/-- C8 witness: the statement at a concrete one-fish population on the
one-tile water map during Day. -/
theorem update_fish_preserves_water_bounds_witness :
    (update_fish mapOneWater [{ kind := speciesA, position := { x := 0, y := 0 } }]
      rngZero "Day").1.length =
      ([{ kind := speciesA, position := { x := 0, y := 0 } }] : List Fish).length ∧
    (∀ f ∈ (update_fish mapOneWater [{ kind := speciesA, position := { x := 0, y := 0 } }]
        rngZero "Day").1,
      mapOneWater.inBounds f.position ∧ (mapOneWater.tile f.position).isWater = true) ∧
    (∀ j,
      |((update_fish mapOneWater [{ kind := speciesA, position := { x := 0, y := 0 } }]
          rngZero "Day").1.getD j dummyFish).position.x -
        (([{ kind := speciesA, position := { x := 0, y := 0 } }] : List Fish).getD j
          dummyFish).position.x| ≤ (if "Day" = "Night" then 2 else 1) ∧
      |((update_fish mapOneWater [{ kind := speciesA, position := { x := 0, y := 0 } }]
          rngZero "Day").1.getD j dummyFish).position.y -
        (([{ kind := speciesA, position := { x := 0, y := 0 } }] : List Fish).getD j
          dummyFish).position.y| ≤ (if "Day" = "Night" then 2 else 1)) :=
  update_fish_preserves_water_bounds mapOneWater
    [{ kind := speciesA, position := { x := 0, y := 0 } }] rngZero "Day" (by decide)

end Lurhook
